import Mathlib

/-!
Shallow embedding of the dynamic-request-routing core of the
`@metis-w/api-client` library: method resolution, route caching,
route-handle construction, response normalization, error
classification and the retry pipeline.
-/

namespace ApiClient

/-- JS `String.prototype.toLowerCase` restricted to the ASCII range
(all strings appearing in the embedded code are ASCII). -/
def jsToLower (s : String) : String := ⟨s.data.map Char.toLower⟩

/-- JS `String.prototype.toUpperCase` restricted to the ASCII range. -/
def jsToUpper (s : String) : String := ⟨s.data.map Char.toUpper⟩

/-- JS `String.prototype.startsWith`. -/
def jsStartsWith (s p : String) : Bool := p.data.isPrefixOf s.data

/-- JS `String.prototype.endsWith`. -/
def jsEndsWith (s p : String) : Bool := p.data.isSuffixOf s.data

/-! ## Method resolver (src/utils/method-resolver.ts)

HTTP methods are modelled as strings: the TypeScript `HTTPMethod` union is
erased at runtime, and unsound casts (`payload.method as HTTPMethod`) let
arbitrary strings flow through, which several claims are about. -/

/-- `MethodResolver.DIRECT_METHODS`. -/
def DIRECT_METHODS : List String := ["GET", "POST", "PUT", "DELETE", "PATCH"]

/-- `MethodResolver.SEMANTIC_PATTERNS`: keyword groups in source order. -/
def SEMANTIC_PATTERNS : List (List String × String) :=
  [ (["get", "fetch", "load", "find", "retrieve", "read", "show", "view"], "GET"),
    (["create", "add", "save", "store", "insert", "new", "register", "submit"], "POST"),
    (["update", "edit", "modify", "change", "replace", "set", "put"], "PUT"),
    (["delete", "remove", "destroy", "clear", "drop", "cancel"], "DELETE"),
    (["patch", "partial", "toggle", "enable", "disable", "activate", "deactivate"], "PATCH") ]

/-- `MethodResolverOptions`; `methodRules` is an ordered association list,
mirroring `Object.entries` insertion order. -/
structure MethodResolverOptions where
  defaultMethod : Option String := none
  methodRules : List (String × String) := []

/-- `MethodResolver.matchesPattern` (both arguments arrive lower-cased at
the call site). -/
def matchesPattern (actionName pattern : String) : Bool :=
  if jsEndsWith pattern "*" then jsStartsWith actionName ⟨pattern.data.dropLast⟩
  else if jsStartsWith pattern "*" then jsEndsWith actionName ⟨pattern.data.drop 1⟩
  else actionName == pattern

/-- The `for (const [pattern, method] of Object.entries(options.methodRules))`
loop in `determineMethod`: first matching rule wins. -/
def findRule : List (String × String) → String → Option String
  | [], _ => none
  | (pattern, method) :: rest, actionLower =>
      if matchesPattern actionLower (jsToLower pattern) then some method
      else findRule rest actionLower

/-- The `for (const { patterns, method } of this.SEMANTIC_PATTERNS)` loop:
first group containing a prefix of the lower-cased action name wins. -/
def findSemantic : List (List String × String) → String → Option String
  | [], _ => none
  | (patterns, method) :: rest, actionLower =>
      if patterns.any (fun pattern => jsStartsWith actionLower pattern) then some method
      else findSemantic rest actionLower

/-- `MethodResolver.determineMethod` with no (or a JS-falsy) explicit method:
direct method names, then custom rules, then semantic analysis, then the
default (`options.defaultMethod || "POST"`, where the empty string is falsy). -/
def determineMethodCore (actionName : String) (options : MethodResolverOptions) : String :=
  let actionLower := jsToLower actionName
  if DIRECT_METHODS.any (fun method => jsToLower method == actionLower) then
    jsToUpper actionLower
  else
    match findRule options.methodRules actionLower with
    | some method => method
    | none =>
        match findSemantic SEMANTIC_PATTERNS actionLower with
        | some method => method
        | none =>
            match options.defaultMethod with
            | some d => if d == "" then "POST" else d
            | none => "POST"

/-- `MethodResolver.determineMethod`.  `if (explicitMethod) return explicitMethod;`
returns the explicit method verbatim when it is JS-truthy (a non-empty string). -/
def determineMethod (actionName : String) (options : MethodResolverOptions)
    (explicitMethod : Option String) : String :=
  match explicitMethod with
  | some m => if m == "" then determineMethodCore actionName options else m
  | none => determineMethodCore actionName options

/-! ## Route validator (src/utils/route-validator.ts) -/

/-- `RouteValidator.RESERVED_PROPS`. -/
def RESERVED_PROPS : List String := ["then", "catch", "finally"]

/-- `RouteValidator.isValidAction` (for string property keys; the
`typeof action === "string"` guard is satisfied by construction here). -/
def isValidAction (action : String) : Bool :=
  !(RESERVED_PROPS.contains action) && !(jsStartsWith action "__")

/-! ## Route cache (src/libs/managers/cache-manager.ts)

JS object references are modelled by allocation numbers: every
`new Proxy`/closure construction yields a fresh `Nat` reference, and a cache
hit returns the stored reference, so reference equality is `Nat` equality.
The three `Map`s are ordered association lists; entries are inserted only
when absent (as in the source), so a list's length is the `Map`'s `size`. -/

structure CacheManagerState where
  routeCache : List (String × Nat) := []
  actionCache : List (String × Nat) := []
  parameterizedCache : List (String × Nat) := []
  nextRef : Nat := 0
  deriving DecidableEq

/-- The freshly-constructed `CacheManager` of a new `DynamicClient`. -/
def initCacheState : CacheManagerState := {}

/-- One JS object allocation (`new Proxy(...)`, a closure, an object literal):
returns a fresh reference. -/
def allocRef (st : CacheManagerState) : Nat × CacheManagerState :=
  (st.nextRef, { st with nextRef := st.nextRef + 1 })

/-- `CacheManager.generateActionCacheKey`:
`CACHE_PREFIXES.ACTION + controller`. -/
def generateActionCacheKey (controller : String) : String :=
  "action_" ++ controller

/-- `CacheManager.generateParameterizedCacheKey`:
`CACHE_PREFIXES.PARAMETERIZED + controller + "_" + id` (a numeric id is
interpolated as its decimal string). -/
def generateParameterizedCacheKey (controller id : String) : String :=
  "param_" ++ controller ++ "_" ++ id

/-- Cache statistics returned by `CacheManager.getStats`. -/
structure CacheStats where
  routes : Nat
  actions : Nat
  parameterized : Nat
  deriving DecidableEq

/-- `CacheManager.getStats`: the three map sizes. -/
def getStats (st : CacheManagerState) : CacheStats :=
  ⟨st.routeCache.length, st.actionCache.length, st.parameterizedCache.length⟩

/-- `CacheManager.clearProxyCache`: empties the three maps. -/
def clearProxyCache (st : CacheManagerState) : CacheManagerState :=
  { st with routeCache := [], actionCache := [], parameterizedCache := [] }

/-! ## Route builder (src/libs/builders/route-builder.ts)

Handle construction is modelled by its effect on the cache state plus the
reference of the handle produced; the traversal traps below mirror each
`get` trap of the source's `Proxy` objects. -/

/-- `RouteBuilder.createActionHandler`: builds a fresh `mainHandler` closure
wrapped in a fresh `Proxy`.  Despite its doc comment ("If the action handler
is already cached, it returns the cached version"), the body consults no
cache: every call allocates a new handler object. -/
def createActionHandler (st : CacheManagerState) : Nat × CacheManagerState :=
  allocRef st

/-- `RouteBuilder.createRoute`: returns the cached controller route if
present, else allocates the `routeFunction`/`cachedProxy` pair and caches it
under the bare controller name. -/
def createRoute (controller : String) (st : CacheManagerState) :
    Nat × CacheManagerState :=
  match st.routeCache.lookup controller with
  | some ref => (ref, st)
  | none =>
      let (ref, st') := allocRef st
      (ref, { st' with routeCache := st'.routeCache ++ [(controller, ref)] })

/-- The `get` trap of the `cachedProxy` in `createRoute`: a valid action name
yields `createActionHandler` (freshly built each access), anything else
yields `undefined`. -/
def routeProxyGet (st : CacheManagerState) (action : String) :
    Option Nat × CacheManagerState :=
  if isValidAction action then
    let (h, st') := createActionHandler st
    (some h, st')
  else (none, st)

/-- `RouteBuilder.createActionRoute`: the action-namespace object for a
controller called with no id, cached under `action_<controller>`. -/
def createActionRoute (controller : String) (st : CacheManagerState) :
    Nat × CacheManagerState :=
  let cacheKey := generateActionCacheKey controller
  match st.actionCache.lookup cacheKey with
  | some ref => (ref, st)
  | none =>
      let (ref, st') := allocRef st
      (ref, { st' with actionCache := st'.actionCache ++ [(cacheKey, ref)] })

/-- The `get` trap of the `actionRoute` proxy in `createActionRoute`: same
shape as `routeProxyGet`. -/
def actionRouteProxyGet (st : CacheManagerState) (action : String) :
    Option Nat × CacheManagerState :=
  if isValidAction action then
    let (h, st') := createActionHandler st
    (some h, st')
  else (none, st)

/-- The `get` trap of the proxy returned by `createActionHandler`: a valid
sub-action yields a fresh `createSubActionHandler` closure, else `undefined`. -/
def actionHandlerProxyGet (st : CacheManagerState) (subAction : String) :
    Option Nat × CacheManagerState :=
  if isValidAction subAction then
    let (h, st') := allocRef st
    (some h, st')
  else (none, st)

/-- `RouteBuilder.createParameterizedRoute`: returns the cached handle for
`param_<controller>_<id>` if present, else allocates `paramFunction` wrapped
in `paramRoute` and caches it. -/
def createParameterizedRoute (controller id : String) (st : CacheManagerState) :
    Nat × CacheManagerState :=
  let cacheKey := generateParameterizedCacheKey controller id
  match st.parameterizedCache.lookup cacheKey with
  | some ref => (ref, st)
  | none =>
      let (ref, st') := allocRef st
      (ref, { st' with parameterizedCache := st'.parameterizedCache ++ [(cacheKey, ref)] })

/-- The `get` trap of the `paramRoute` proxy: a valid action yields a fresh
`createEndpointHandler` closure wrapped in a fresh proxy, else `undefined`. -/
def paramRouteProxyGet (st : CacheManagerState) (action : String) :
    Option Nat × CacheManagerState :=
  if isValidAction action then
    let (_h, st') := allocRef st
    let (proxy, st'') := allocRef st'
    (some proxy, st'')
  else (none, st)

/-- One dotted access `client.<controller>.<action>` on the `DynamicClient`
facade: the facade's `get` trap delegates unknown properties to
`RouteBuilder.createRoute`, and the property access on the returned route
proxy runs its `get` trap. -/
def accessControllerAction (controller action : String) (st : CacheManagerState) :
    Option Nat × CacheManagerState :=
  let (_route, st1) := createRoute controller st
  routeProxyGet st1 action

/-! ## Handler invocation (route-builder handlers + DynamicClient's
`universalRequest`, src/core/dynamic-client.ts)

A payload is a JS object literal, modelled as an ordered key/value list.
Only the value shapes the handlers inspect are modelled. -/

/-- A payload field value. -/
inductive PValue where
  | str (s : String)
  | bool (b : Bool)
  | num (n : Int)
  deriving DecidableEq

/-- A JS object literal used as a request payload. -/
def PayloadObj := List (String × PValue)
  deriving DecidableEq

/-- Query parameters (`Record<string, string>`). -/
def QueryParams := List (String × String)
  deriving DecidableEq

/-- `"method" in payload`. -/
def payloadHasMethod (p : List (String × PValue)) : Bool :=
  p.any (fun kv => kv.fst == "method")

/-- The handlers' explicit-method extraction:
`payload && typeof payload === "object" && "method" in payload
  ? (payload.method as HTTPMethod) : undefined`.
The unsound cast passes the stored value through verbatim; only
string-valued `method` keys are modelled (the only shape the claims use). -/
def extractExplicitMethod (payload : Option PayloadObj) : Option String :=
  match payload with
  | some p =>
      if payloadHasMethod p then
        match p.lookup "method" with
        | some (PValue.str s) => some s
        | _ => none
      else none
  | none => none

/-- The handlers' payload cleaning:
`Object.fromEntries(Object.entries(payload).filter(([key]) => key !== "method"))`
when the reserved key is present, the payload unchanged otherwise. -/
def stripMethodKey (payload : Option PayloadObj) : Option PayloadObj :=
  match payload with
  | some p =>
      if payloadHasMethod p then some (p.filter (fun kv => !(kv.fst == "method")))
      else some p
  | none => none

/-- The `RequestConfig` handed to `APIClient.request` by `universalRequest`. -/
structure IssuedRequest where
  url : String
  method : String
  data : Option PayloadObj
  params : Option QueryParams
  deriving DecidableEq

/-- JS truthiness filter for an optional string (the empty string is falsy). -/
def jsTruthy (v : Option String) : Option String :=
  match v with
  | some s => if s == "" then none else some s
  | none => none

/-- `DynamicClient`'s `universalRequest`: forwards the endpoint, payload and
query params, with `config?.method || this.apiConfig.defaultMethod || 'POST'`
as the method.  Returns the single `RequestConfig` it feeds to `request`. -/
def universalRequest (apiDefaultMethod : Option String) (endpoint : String)
    (payload : Option PayloadObj) (cfgMethod : Option String)
    (cfgParams : Option QueryParams) : IssuedRequest :=
  { url := endpoint
    method := (jsTruthy cfgMethod).getD ((jsTruthy apiDefaultMethod).getD "POST")
    data := payload
    params := cfgParams }

/-- `endpoint.split("/")` on character lists. -/
def splitOnSlash : List Char → List Char → List (List Char)
  | [], acc => [acc.reverse]
  | c :: rest, acc =>
      if c = '/' then acc.reverse :: splitOnSlash rest []
      else splitOnSlash rest (c :: acc)

/-- `endpoint.split("/").pop() || ""` (the split of a string is never the
empty array, so `pop` is total; `|| ""` maps an empty last segment to itself). -/
def lastPathSegment (s : String) : String :=
  ⟨(splitOnSlash s.data []).getLastD []⟩

/-- Invoking the `paramFunction` closure of `createParameterizedRoute`
directly (`client.users(123)(payload, queryParams)`).  Result: the sequence
of `RequestConfig`s passed to the request pipeline (exactly one call site in
the source body). -/
def paramDirectCall (controller id : String) (apiDefaultMethod : Option String)
    (methodOptions : MethodResolverOptions) (payload : Option PayloadObj)
    (queryParams : Option QueryParams) : List IssuedRequest :=
  let baseEndpoint := "/" ++ controller ++ "/" ++ id
  let explicitMethod := extractExplicitMethod payload
  let defaultAction :=
    match payload with
    | some p => if p.length > 0 then "update" else "get"
    | none => "get"
  let httpMethod := determineMethod defaultAction methodOptions explicitMethod
  let cleanPayload := stripMethodKey payload
  [universalRequest apiDefaultMethod baseEndpoint cleanPayload (some httpMethod) queryParams]

/-- Invoking the closure built by `RouteBuilder.createEndpointHandler`:
the action name for method resolution is
`actionName || endpoint.split("/").pop() || ""`. -/
def endpointHandlerCall (endpoint : String) (actionName : Option String)
    (apiDefaultMethod : Option String) (methodOptions : MethodResolverOptions)
    (payload : Option PayloadObj) (queryParams : Option QueryParams) :
    List IssuedRequest :=
  let explicitMethod := extractExplicitMethod payload
  let action := (jsTruthy actionName).getD (lastPathSegment endpoint)
  let httpMethod := determineMethod action methodOptions explicitMethod
  let cleanPayload := stripMethodKey payload
  [universalRequest apiDefaultMethod endpoint cleanPayload (some httpMethod) queryParams]

/-- Traversing a parameterized route to an action and invoking it
(`client.users(123).follow(payload)`): the `paramRoute` `get` trap builds
`createEndpointHandler` over `/controller/id/action` with the action name. -/
def paramActionCall (controller id action : String)
    (apiDefaultMethod : Option String) (methodOptions : MethodResolverOptions)
    (payload : Option PayloadObj) (queryParams : Option QueryParams) :
    List IssuedRequest :=
  endpointHandlerCall ("/" ++ controller ++ "/" ++ id ++ "/" ++ action)
    (some action) apiDefaultMethod methodOptions payload queryParams

/-- Invoking the `mainHandler` closure of `createActionHandler`
(`client.users.getProfile(payload, queryParams)`), bound to
`/controller/action`. -/
def mainHandlerCall (controller action : String)
    (apiDefaultMethod : Option String) (methodOptions : MethodResolverOptions)
    (payload : Option PayloadObj) (queryParams : Option QueryParams) :
    List IssuedRequest :=
  let baseEndpoint := "/" ++ controller ++ "/" ++ action
  let explicitMethod := extractExplicitMethod payload
  let httpMethod := determineMethod action methodOptions explicitMethod
  let cleanPayload := stripMethodKey payload
  [universalRequest apiDefaultMethod baseEndpoint cleanPayload (some httpMethod) queryParams]

/-! ## Response parser (src/libs/parsers/response-parser.ts) -/

/-- A parsed JSON value (`await response.json()`). -/
inductive Json where
  | null
  | bool (b : Bool)
  | num (n : Int)
  | str (s : String)
  | arr (elems : List Json)
  | obj (fields : List (String × Json))

/-- `typeof data === "object"`: true for `null`, arrays and objects. -/
def jsTypeofIsObject : Json → Bool
  | .null => true
  | .arr _ => true
  | .obj _ => true
  | _ => false

/-- `"success" in data` for a non-null object-typed value: a JSON-parsed
array never carries a `success` property, an object carries it iff a field
named `success` is present.  (On `null` the JS `in` operator throws; that
case is handled in `parseResponse` itself.) -/
def hasSuccessField : Json → Bool
  | .obj fields => fields.any (fun f => f.fst == "success")
  | _ => false

/-- `error.code`/`error.message` of a normalized response. -/
structure ErrorInfo where
  code : Nat
  message : String
  deriving DecidableEq

/-- The `APIResponse` object built by the normalizing branches of
`parseResponse` (absent fields are `none`). -/
structure NormalizedResponse where
  success : Bool
  data : Option Json
  error : Option ErrorInfo

/-- The value returned by `parseResponse`: either the parsed body passed
through unchanged (`return data as APIResponse<T>`), or a freshly built
normalized object. -/
inductive ParseResult where
  | passthrough (body : Json)
  | normalized (r : NormalizedResponse)

/-- `Response.ok`: HTTP status in the 2xx range. -/
def responseOk (status : Nat) : Bool := 200 ≤ status && status ≤ 299

/-- `ResponseParser.parseResponse`, as a function of the HTTP status, the
status text, and the body-parse outcome (`none` when `response.json()`
rejects).  When the body parses to JSON `null`, `typeof data === "object"`
holds and `"success" in data` throws a `TypeError`, which the surrounding
`try` converts into the parse-failure result. -/
def parseResponse (status : Nat) (statusText : String) (body : Option Json) :
    ParseResult :=
  match body with
  | none =>
      .normalized ⟨false, none, some ⟨status, "Failed to parse response"⟩⟩
  | some data =>
      if jsTypeofIsObject data then
        match data with
        | .null =>
            .normalized ⟨false, none, some ⟨status, "Failed to parse response"⟩⟩
        | _ =>
            if hasSuccessField data then .passthrough data
            else
              .normalized ⟨responseOk status,
                if responseOk status then some data else none,
                if responseOk status then none
                else some ⟨status, if statusText == "" then "Request failed" else statusText⟩⟩
      else
        .normalized ⟨responseOk status,
          if responseOk status then some data else none,
          if responseOk status then none
          else some ⟨status, if statusText == "" then "Request failed" else statusText⟩⟩

/-! ## Error classification and retry policy
(src/libs/parsers/response-parser.ts, src/libs/managers/retry-manager.ts) -/

/-- The `ClientError` shape (`type` is one of
`"network" | "timeout" | "abort" | "parse"` at the TypeScript level). -/
structure ClientError where
  message : String
  type : String
  deriving DecidableEq

/-- A JS value caught by a `catch` block in the pipeline: either a real
`Error` instance (as thrown by `fetch`) with its `name`/`message`, or a
plain `ClientError` object (as thrown by `executeRequest`), which is *not*
an `instanceof Error` and carries no `name` property. -/
inductive CaughtValue where
  | jsError (name : String) (message : String)
  | clientErr (e : ClientError)
  deriving DecidableEq

/-- `ResponseParser.createClientError`.  For an `Error` instance it switches
on `error.name`; for anything else it falls through to the non-`Error`
branch, which preserves a string `message` property but hardcodes
`type: "network"`. -/
def createClientError : CaughtValue → ClientError
  | .jsError name message =>
      if name == "AbortError" then ⟨"Request was aborted", "abort"⟩
      else if name == "TypeError" then ⟨"Network error", "network"⟩
      else ⟨if message == "" then "Unknown error" else message, "network"⟩
  | .clientErr e => ⟨e.message, "network"⟩

/-- `RetryManager.shouldRetry`: aborts are not retried, timeouts and
network errors are. -/
def shouldRetry (error : ClientError) : Bool :=
  if error.type == "abort" then false
  else if error.type == "timeout" then true
  else if error.type == "network" then true
  else false

/-! ## Retry pipeline (`APIClient.request`, src/core/api-client.ts)

One transport attempt either resolves with a response or rejects with a JS
`Error` (the errors `fetch` throws — network `TypeError`s, `AbortError`s —
are `Error` instances).  `executeRequest` catches that raw error and throws
`ResponseParser.createClientError(error)`; the `while` loop in `request`
catches the thrown value and classifies it *again* with
`createClientError` before consulting `shouldRetry`. -/

/-- The outcome of one transport call: `fetch` resolves with a response or
rejects with an `Error` whose `name`/`message` are recorded. -/
inductive AttemptOutcome (α : Type) where
  | success (response : α)
  | failure (name : String) (message : String)

/-- The value `request` produces: the final response, the `ClientError`
thrown after classification, or the unreachable post-loop
`new Error("Request failed after maximum retry attempts.")`. -/
inductive PipelineResult (α : Type) where
  | ok (response : α)
  | err (e : ClientError)
  | exhausted
  deriving DecidableEq

/-- The `while (attempt < maxAttempts)` loop of `APIClient.request`.
`transport n` is the outcome of the `n`-th transport invocation (0-based);
the second component of the result counts transport invocations.  Fuel
equals the number of loop iterations still allowed. -/
def requestLoop {α : Type} (transport : Nat → AttemptOutcome α)
    (maxAttempts : Nat) : Nat → Nat → Nat → PipelineResult α × Nat
  | 0, _, calls => (.exhausted, calls)
  | fuel + 1, attempt, calls =>
      if attempt < maxAttempts then
        match transport calls with
        | .success r => (.ok r, calls + 1)
        | .failure name message =>
            let raw := createClientError (.jsError name message)
            let clientError := createClientError (.clientErr raw)
            let attempt' := attempt + 1
            if attempt' ≥ maxAttempts || !(shouldRetry clientError) then
              (.err clientError, calls + 1)
            else
              requestLoop transport maxAttempts fuel attempt' (calls + 1)
      else (.exhausted, calls)

/-- `APIClient.request` after config merging: `maxAttempts = retries + 1`
attempts (the interceptor chains, which only transform the config and the
final response, are not involved in the claims modelled here). -/
def runRequest {α : Type} (transport : Nat → AttemptOutcome α)
    (retries : Nat) : PipelineResult α × Nat :=
  requestLoop transport (retries + 1) (retries + 1) 0 0

end ApiClient


namespace ApiClient

/-! ## Claim theorems -/

/-- C1: the spec claims resolving `client.c.a` twice returns the identical
handle (reference equality) with the `actions` stats counter rising by 1
then by 0.  Evaluating the embedded code at controller `"users"`, action
`"getProfile"` on a fresh client shows the two accesses return *distinct*
handler objects and the `actions` counter stays 0 after both resolutions:
`createActionHandler` never consults a cache, contradicting its own doc
comment. -/
theorem claim_C1_action_handler_not_cached :
    (accessControllerAction "users" "getProfile" initCacheState).fst ≠
      (accessControllerAction "users" "getProfile"
        (accessControllerAction "users" "getProfile" initCacheState).snd).fst
    ∧ (getStats (accessControllerAction "users" "getProfile" initCacheState).snd).actions = 0
    ∧ (getStats (accessControllerAction "users" "getProfile"
        (accessControllerAction "users" "getProfile" initCacheState).snd).snd).actions = 0 := by
  decide

/-- C3: a parameterized route handle is directly callable with the claimed
request semantics: `client.users(123).follow({notify:true})` issues exactly
one request, to `/users/123/follow`; `client.users(123)()` issues
`GET /users/123`; `client.users(123)({name:"X"})` issues `PUT /users/123`;
`client.users(123)({method:"DELETE"})` issues `DELETE /users/123` with the
reserved `method` key stripped from the body. -/
theorem claim_C3_parameterized_call_semantics :
    paramActionCall "users" "123" "follow" none {} (some [("notify", .bool true)]) none =
      [⟨"/users/123/follow", "POST", some [("notify", .bool true)], none⟩]
    ∧ paramDirectCall "users" "123" none {} none none =
        [⟨"/users/123", "GET", none, none⟩]
    ∧ paramDirectCall "users" "123" none {} (some [("name", .str "X")]) none =
        [⟨"/users/123", "PUT", some [("name", .str "X")], none⟩]
    ∧ paramDirectCall "users" "123" none {} (some [("method", .str "DELETE")]) none =
        [⟨"/users/123", "DELETE", some [], none⟩] := by
  decide

/-- C4: with `retries: 2`, two network-error failures followed by a success
do give exactly 3 transport invocations and the successful response; but an
abort error on the first attempt does *not* stop the pipeline: the caught
`ClientError` is re-classified by `createClientError`'s non-`Error` branch
as `type: "network"`, `shouldRetry` approves it, and the transport is
invoked a second time — the claim's "invoked exactly once and throws
immediately" fails on the code. -/
theorem claim_C4_abort_is_retried :
    runRequest (fun n => if n < 2 then .failure "TypeError" "Failed to fetch"
      else .success 200) 2 = (.ok 200, 3)
    ∧ runRequest (fun n => if n = 0 then .failure "AbortError" "The operation was aborted."
        else .success 200) 2 = (.ok 200, 2) := by
  decide

/-- C9: a body parsing to JSON `null` is reported as a parse failure
(`success: false`, `error.message = "Failed to parse response"`) for every
HTTP status, including the 2xx range: the `"success" in data` test throws on
`null` and lands in the catch branch. -/
theorem claim_C9_null_body_is_parse_failure :
    ∀ (status : Nat) (statusText : String),
      parseResponse status statusText (some Json.null) =
        .normalized ⟨false, none, some ⟨status, "Failed to parse response"⟩⟩ :=
  fun _ _ => rfl

end ApiClient

namespace ApiClient

/-- C6 counterexample: the pairs `("x_y", "z")` and `("x", "y_z")` differ,
yet both receive the cache key `"param_x_y_z"` — the claimed collision
freedom fails at exactly the instance the spec names. -/
theorem claim_C6_counterexample :
    (("x_y", "z") ≠ (("x" : String), ("y_z" : String)))
    ∧ generateParameterizedCacheKey "x_y" "z" = generateParameterizedCacheKey "x" "y_z" := by
  decide

/-- C6 amended: parameterized cache keys are *not* collision-free across
controller/id splits; two pairs share a key exactly when the concatenations
`controller ++ "_" ++ id` coincide, so `("x_y", "z")` and `("x", "y_z")`
collide on `"param_x_y_z"` (the accepted design limitation of spec §9). -/
theorem claim_C6_amended_key_characterization :
    ∀ c₁ i₁ c₂ i₂ : String,
      generateParameterizedCacheKey c₁ i₁ = generateParameterizedCacheKey c₂ i₂ ↔
        c₁ ++ "_" ++ i₁ = c₂ ++ "_" ++ i₂ := by
  intro c₁ i₁ c₂ i₂
  simp [generateParameterizedCacheKey, String.ext_iff, String.data_append,
    List.append_assoc]

end ApiClient

namespace ApiClient

/-- The response-normalization contract stated by the spec (§6), amended for
JSON `null` bodies: a body that fails to parse — or parses to `null`, on
which the `success`-membership test throws — yields the fixed parse-failure
object; a body carrying a `success` field passes through unchanged; any
other body is normalized from the HTTP status.  Written from the spec's
words for comparison with `parseResponse`. -/
def specNormalizeResponse (status : Nat) (statusText : String) :
    Option Json → ParseResult
  | none => .normalized ⟨false, none, some ⟨status, "Failed to parse response"⟩⟩
  | some Json.null => .normalized ⟨false, none, some ⟨status, "Failed to parse response"⟩⟩
  | some data =>
      if hasSuccessField data then .passthrough data
      else
        .normalized ⟨responseOk status,
          if responseOk status then some data else none,
          if responseOk status then none
          else some ⟨status, if statusText == "" then "Request failed" else statusText⟩⟩

/-- C5 counterexample: at status 200 with body JSON `null` the claim's
otherwise-branch prescribes `{ success: true, data: null }`, but
`parseResponse` returns the parse-failure object. -/
theorem claim_C5_counterexample :
    parseResponse 200 "OK" (some Json.null) ≠
      ParseResult.normalized ⟨true, some Json.null, none⟩ := by
  intro h
  simp [parseResponse, jsTypeofIsObject] at h

/-- C5 amended: `parseResponse` realizes the spec's normalization contract
with one amendment — a body parsing to JSON `null` is routed to the
parse-failure branch rather than normalized as a 2xx success. -/
theorem claim_C5_amended_normalization :
    ∀ (status : Nat) (statusText : String) (body : Option Json),
      parseResponse status statusText body = specNormalizeResponse status statusText body := by
  intro status statusText body
  rcases body with _ | j
  · rfl
  · cases j <;> rfl

/-- C10: every `ClientError` built by `createClientError` has type `"abort"`
or `"network"` (never `"timeout"` or `"parse"`), and a timeout-fired
`AbortError` is classified `"abort"` by `executeRequest`; but the claim's
"never retried" fails: re-classifying the thrown `ClientError` in the retry
loop yields `type: "network"`, which `shouldRetry` approves, so the aborted
attempt is retried until attempts run out. -/
theorem claim_C10_abort_classification :
    (∀ v, (createClientError v).type = "abort" ∨ (createClientError v).type = "network")
    ∧ (createClientError (.jsError "AbortError" "signal is aborted")).type = "abort"
    ∧ shouldRetry (createClientError (.clientErr
        (createClientError (.jsError "AbortError" "signal is aborted")))) = true
    ∧ runRequest (fun _ => (.failure "AbortError" "signal is aborted" : AttemptOutcome Nat)) 1 =
        (.err ⟨"Request was aborted", "network"⟩, 2) := by
  refine ⟨fun v => ?_, by decide, by decide, by decide⟩
  rcases v with ⟨name, message⟩ | e
  · by_cases h1 : (name == "AbortError") = true
    · left; simp [createClientError, h1]
    · right
      by_cases h2 : (name == "TypeError") = true <;>
        simp [createClientError, h1, h2]
  · right; rfl

end ApiClient

namespace ApiClient

/-- C8: on every route handle — controller route, action namespace, action
handler, parameterized route — accessing `then`, `catch`, `finally` or any
double-underscore-prefixed name yields `undefined` (no handler is built and
the cache state is untouched), so a handle is never mistaken for a
thenable. -/
theorem claim_C8_reserved_props_undefined :
    ∀ (st : CacheManagerState) (name : String),
      (name = "then" ∨ name = "catch" ∨ name = "finally" ∨ jsStartsWith name "__" = true) →
      routeProxyGet st name = (none, st)
      ∧ actionRouteProxyGet st name = (none, st)
      ∧ actionHandlerProxyGet st name = (none, st)
      ∧ paramRouteProxyGet st name = (none, st) := by
  intro st name h
  have hval : isValidAction name = false := by
    rcases h with h | h | h | h
    · subst h; decide
    · subst h; decide
    · subst h; decide
    · simp [isValidAction, h]
  exact ⟨by simp [routeProxyGet, hval], by simp [actionRouteProxyGet, hval],
    by simp [actionHandlerProxyGet, hval], by simp [paramRouteProxyGet, hval]⟩

/-- C8 witness: the theorem applied at the reserved name `"then"` and at a
fresh cache state. -/
theorem claim_C8_reserved_props_undefined_witness :
    (("then" : String) = "then" ∨ ("then" : String) = "catch" ∨
      ("then" : String) = "finally" ∨ jsStartsWith "then" "__" = true)
    ∧ routeProxyGet initCacheState "then" = (none, initCacheState)
    ∧ actionRouteProxyGet initCacheState "then" = (none, initCacheState)
    ∧ actionHandlerProxyGet initCacheState "then" = (none, initCacheState)
    ∧ paramRouteProxyGet initCacheState "then" = (none, initCacheState) :=
  ⟨Or.inl rfl, claim_C8_reserved_props_undefined initCacheState "then" (Or.inl rfl)⟩

end ApiClient

namespace ApiClient

/-! ## Spec-side method resolution (claims C2 and C7)

`specDetermineMethod` restates the precedence chain in the claim's words —
explicit override, then direct method name, then first matching custom rule,
then first semantic keyword group, then the default — using first-match
searches, for comparison with the source embedding `determineMethod`. -/

/-- The claim's direct-method step: the HTTP method that case-insensitively
equals the action name, if any. -/
def specDirect (actionName : String) : Option String :=
  DIRECT_METHODS.find? (fun m => jsToLower m == jsToLower actionName)

/-- The claim's custom-rules step: the value of the first `methodRules`
entry whose key matches (exact case-insensitive match; prefix match for
keys ending in the wildcard marker; suffix match for keys starting with
it — the matcher `matchesPattern`). -/
def specFirstRule (rules : List (String × String)) (actionLower : String) :
    Option String :=
  (rules.find? (fun rule => matchesPattern actionLower (jsToLower rule.fst))).map Prod.snd

/-- The claim's semantic step: the method of the first of the five fixed
keyword groups (GET, POST, PUT, DELETE, PATCH order) containing a keyword
that prefixes the lower-cased action name. -/
def specFirstSemantic (actionLower : String) : Option String :=
  (SEMANTIC_PATTERNS.find? (fun g =>
    g.fst.any (fun keyword => jsStartsWith actionLower keyword))).map Prod.snd

/-- The full precedence chain as the claim states it. -/
def specDetermineMethod (actionName : String) (options : MethodResolverOptions)
    (explicitMethod : Option String) : String :=
  match explicitMethod with
  | some m => m
  | none =>
      match specDirect actionName with
      | some m => m
      | none =>
          match specFirstRule options.methodRules (jsToLower actionName) with
          | some m => m
          | none =>
              match specFirstSemantic (jsToLower actionName) with
              | some m => m
              | none => options.defaultMethod.getD "POST"

theorem findRule_eq_specFirstRule (rules : List (String × String)) (aL : String) :
    findRule rules aL = specFirstRule rules aL := by
  induction rules with
  | nil => rfl
  | cons r rest ih =>
      obtain ⟨p, m⟩ := r
      by_cases h : matchesPattern aL (jsToLower p) = true
      · simp [findRule, specFirstRule, h, List.find?_cons_of_pos]
      · rw [Bool.not_eq_true] at h
        simp [findRule, specFirstRule, h, List.find?_cons_of_neg, ih,
          specFirstRule]

theorem findSemantic_eq_specFind (groups : List (List String × String)) (aL : String) :
    findSemantic groups aL =
      (groups.find? (fun g =>
        g.fst.any (fun keyword => jsStartsWith aL keyword))).map Prod.snd := by
  induction groups with
  | nil => rfl
  | cons g rest ih =>
      obtain ⟨pats, m⟩ := g
      by_cases h : pats.any (fun keyword => jsStartsWith aL keyword) = true
      · simp [findSemantic, h, List.find?_cons_of_pos]
      · rw [Bool.not_eq_true] at h
        simp [findSemantic, h, List.find?_cons_of_neg, ih]

end ApiClient

namespace ApiClient

theorem findSemantic_patterns_eq (aL : String) :
    findSemantic SEMANTIC_PATTERNS aL = specFirstSemantic aL :=
  findSemantic_eq_specFind SEMANTIC_PATTERNS aL

theorem mem_direct_ne_empty {m : String} (hm : m ∈ DIRECT_METHODS) :
    (m == "") = false := by
  simp only [DIRECT_METHODS, List.mem_cons, List.not_mem_nil, or_false] at hm
  rcases hm with rfl | rfl | rfl | rfl | rfl <;> rfl

/-- C2: `determineMethod` realizes the claim's precedence chain —
explicit override, then direct method name, then first matching custom
rule, then first semantic keyword group, then `defaultMethod`/`"POST"` —
whenever the explicitly supplied method and the configured default are
genuine HTTP method names (the `HTTPMethod` type of the source). -/
theorem claim_C2_precedence (a : String) (opts : MethodResolverOptions)
    (em : Option String)
    (hem : ∀ m, em = some m → m ∈ DIRECT_METHODS)
    (hdm : ∀ d, opts.defaultMethod = some d → d ∈ DIRECT_METHODS) :
    determineMethod a opts em = specDetermineMethod a opts em := by
  cases em with
  | some m =>
      have hne := mem_direct_ne_empty (hem m rfl)
      simp [determineMethod, specDetermineMethod, hne]
  | none =>
      simp only [determineMethod, specDetermineMethod, determineMethodCore]
      by_cases hdir : (DIRECT_METHODS.any fun method => jsToLower method == jsToLower a) = true
      · rw [if_pos hdir]
        rcases List.any_eq_true.mp hdir with ⟨M, hM, hbeq⟩
        have heq : jsToLower M = jsToLower a := beq_iff_eq.mp hbeq
        unfold specDirect
        rw [← heq]
        simp only [DIRECT_METHODS, List.mem_cons, List.not_mem_nil, or_false] at hM
        rcases hM with rfl | rfl | rfl | rfl | rfl <;> rfl
      · rw [if_neg hdir]
        have hnone : specDirect a = none := by
          unfold specDirect
          rw [List.find?_eq_none]
          intro x hx hpx
          exact hdir (List.any_eq_true.mpr ⟨x, hx, hpx⟩)
        rw [findRule_eq_specFirstRule, findSemantic_patterns_eq]
        cases hfr : specFirstRule opts.methodRules (jsToLower a) with
        | some m => simp [hnone, hfr]
        | none =>
            cases hfs : specFirstSemantic (jsToLower a) with
            | some m => simp [hnone, hfr, hfs]
            | none =>
                cases hdmv : opts.defaultMethod with
                | some d =>
                    have hne := mem_direct_ne_empty (hdm d hdmv)
                    simp [hnone, hfr, hfs, hdmv, hne]
                | none => simp [hnone, hfr, hfs, hdmv]

/-- C2 witness: the theorem applied at action `"removeUser"` with a
wildcard rule and an explicit default, where the rules step fires. -/
theorem claim_C2_precedence_witness :
    (∀ d, (some "GET" : Option String) = some d → d ∈ DIRECT_METHODS)
    ∧ determineMethod "banUser" ⟨some "GET", [("ban*", "PATCH")]⟩ none =
        specDetermineMethod "banUser" ⟨some "GET", [("ban*", "PATCH")]⟩ none :=
  ⟨fun d hd => by cases hd; decide,
    claim_C2_precedence "banUser" ⟨some "GET", [("ban*", "PATCH")]⟩ none
      (fun m hm => by cases hm)
      (fun d hd => by cases hd; decide)⟩

end ApiClient

namespace ApiClient

theorem mem_of_findRule_some (rules : List (String × String)) (aL : String)
    {m : String} (h : findRule rules aL = some m) : ∃ p, (p, m) ∈ rules := by
  induction rules with
  | nil => simp [findRule] at h
  | cons r rest ih =>
      obtain ⟨p, v⟩ := r
      by_cases hm : matchesPattern aL (jsToLower p) = true
      · rw [findRule, if_pos hm, Option.some_inj] at h
        exact ⟨p, by simp [h]⟩
      · rw [findRule, if_neg hm] at h
        rcases ih h with ⟨q, hq⟩
        exact ⟨q, List.mem_cons_of_mem _ hq⟩

theorem mem_of_findSemantic_some (groups : List (List String × String))
    (aL : String) {m : String} (h : findSemantic groups aL = some m) :
    ∃ g, g ∈ groups ∧ g.snd = m := by
  induction groups with
  | nil => simp [findSemantic] at h
  | cons g rest ih =>
      obtain ⟨pats, v⟩ := g
      by_cases hg : pats.any (fun keyword => jsStartsWith aL keyword) = true
      · rw [findSemantic, if_pos hg, Option.some_inj] at h
        exact ⟨(pats, v), List.mem_cons_self _ _, h⟩
      · rw [findSemantic, if_neg hg] at h
        rcases ih h with ⟨q, hq, hqm⟩
        exact ⟨q, List.mem_cons_of_mem _ hq, hqm⟩

theorem jsUpper_of_mem_direct {m : String} (h : m ∈ DIRECT_METHODS) :
    jsToUpper m = m := by
  simp only [DIRECT_METHODS, List.mem_cons, List.not_mem_nil, or_false] at h
  rcases h with rfl | rfl | rfl | rfl | rfl <;> rfl

/-- Without an explicit method, `determineMethod`'s result is itself an
HTTP method name whenever the configured rule values and default are. -/
theorem determineMethodCore_mem (a : String) (opts : MethodResolverOptions)
    (hr : ∀ r ∈ opts.methodRules, r.snd ∈ DIRECT_METHODS)
    (hd : ∀ d, opts.defaultMethod = some d → d ∈ DIRECT_METHODS) :
    determineMethodCore a opts ∈ DIRECT_METHODS := by
  simp only [determineMethodCore]
  by_cases hdir : (DIRECT_METHODS.any fun method => jsToLower method == jsToLower a) = true
  · rw [if_pos hdir]
    rcases List.any_eq_true.mp hdir with ⟨M, hM, hbeq⟩
    have heq : jsToLower M = jsToLower a := beq_iff_eq.mp hbeq
    rw [← heq]
    simp only [DIRECT_METHODS, List.mem_cons, List.not_mem_nil, or_false] at hM
    rcases hM with rfl | rfl | rfl | rfl | rfl <;> decide
  · rw [if_neg hdir]
    cases hfr : findRule opts.methodRules (jsToLower a) with
    | some m =>
        rcases mem_of_findRule_some _ _ hfr with ⟨p, hp⟩
        exact hr (p, m) hp
    | none =>
        cases hfs : findSemantic SEMANTIC_PATTERNS (jsToLower a) with
        | some m =>
            rcases mem_of_findSemantic_some _ _ hfs with ⟨g, hg, hgm⟩
            have hsnd : ∀ g ∈ SEMANTIC_PATTERNS, g.snd ∈ DIRECT_METHODS := by decide
            exact hgm ▸ hsnd g hg
        | none =>
            cases hdmv : opts.defaultMethod with
            | some d =>
                have h5 := hd d hdmv
                have hne := mem_direct_ne_empty h5
                simp [hne, h5]
            | none => decide

/-- C7 counterexample: an explicit method extracted in lowercase from a
payload's reserved `method` key is returned verbatim — at action
`"follow"` with explicit `"delete"`, the result is `"delete"`, not its
uppercasing `"DELETE"`. -/
theorem claim_C7_counterexample :
    determineMethod "follow" {} (some "delete") ≠
      jsToUpper (determineMethod "follow" {} (some "delete")) := by
  decide

/-- `findRule` only consults rule keys through `jsToLower`: two rule lists
with case-equivalent keys and equal values match identically. -/
theorem findRule_congr (aL : String) :
    ∀ rules₁ rules₂ : List (String × String),
      rules₁.map (fun r => (jsToLower r.fst, r.snd)) =
        rules₂.map (fun r => (jsToLower r.fst, r.snd)) →
      findRule rules₁ aL = findRule rules₂ aL := by
  intro rules₁
  induction rules₁ with
  | nil =>
      intro rules₂ h
      cases rules₂ with
      | nil => rfl
      | cons r rest => simp at h
  | cons r rest ih =>
      intro rules₂ h
      cases rules₂ with
      | nil => simp at h
      | cons r₂ rest₂ =>
          obtain ⟨p₁, m₁⟩ := r
          obtain ⟨p₂, m₂⟩ := r₂
          simp only [List.map_cons, List.cons.injEq, Prod.mk.injEq] at h
          obtain ⟨⟨hp, hm⟩, hrest⟩ := h
          simp only [findRule, hp, hm, ih rest₂ hrest]

/-- `determineMethodCore` only consults the action name through
`jsToLower`: case-equivalent action names resolve identically. -/
theorem determineMethodCore_congr {a b : String} (opts : MethodResolverOptions)
    (h : jsToLower a = jsToLower b) :
    determineMethodCore a opts = determineMethodCore b opts := by
  simp only [determineMethodCore, h]

/-- C7 amended: a supplied (JS-truthy) explicit method is returned
verbatim — uppercase only when supplied uppercase — while without an
explicit method the result equals its own uppercasing whenever the
configured rule values and default are genuine HTTP method names (as the
`HTTPMethod` type demands); matching stays case-insensitive throughout:
case-equivalent action names resolve identically (covering the direct
method names and the fixed lowercase semantic keywords, which are only
compared against the lower-cased action name), and so do rule lists whose
keys agree up to case. -/
theorem claim_C7_amended_uppercase :
    (∀ (a : String) (opts : MethodResolverOptions) (m : String), m ≠ "" →
        determineMethod a opts (some m) = m)
    ∧ (∀ (a : String) (opts : MethodResolverOptions),
        (∀ r ∈ opts.methodRules, r.snd ∈ DIRECT_METHODS) →
        (∀ d, opts.defaultMethod = some d → d ∈ DIRECT_METHODS) →
        determineMethod a opts none = jsToUpper (determineMethod a opts none))
    ∧ (∀ (a b : String) (opts : MethodResolverOptions) (em : Option String),
        jsToLower a = jsToLower b →
        determineMethod a opts em = determineMethod b opts em)
    ∧ (∀ (a : String) (dm em : Option String)
        (rules₁ rules₂ : List (String × String)),
        rules₁.map (fun r => (jsToLower r.fst, r.snd)) =
          rules₂.map (fun r => (jsToLower r.fst, r.snd)) →
        determineMethod a ⟨dm, rules₁⟩ em = determineMethod a ⟨dm, rules₂⟩ em) := by
  refine ⟨fun a opts m hm => ?_, fun a opts hr hd => ?_,
    fun a b opts em h => ?_, fun a dm em rules₁ rules₂ h => ?_⟩
  · simp [determineMethod, hm]
  · exact (jsUpper_of_mem_direct (determineMethodCore_mem a opts hr hd)).symm
  · cases em with
    | some m =>
        simp only [determineMethod, determineMethodCore_congr opts h]
    | none => exact determineMethodCore_congr opts h
  · have hcore : determineMethodCore a ⟨dm, rules₁⟩ = determineMethodCore a ⟨dm, rules₂⟩ := by
      simp only [determineMethodCore, findRule_congr (jsToLower a) rules₁ rules₂ h]
    cases em with
    | some m => simp only [determineMethod, hcore]
    | none => exact hcore

/-- C7 witness: the amended theorem applied at explicit `"PATCH"`, at
action `"removeAll"` with default options, at the case-equivalent action
names `"GeTUser"`/`"getuser"`, and at rule lists with case-equivalent
keys. -/
theorem claim_C7_amended_uppercase_witness :
    ("PATCH" : String) ≠ ""
    ∧ determineMethod "x" {} (some "PATCH") = "PATCH"
    ∧ determineMethod "removeAll" {} none =
        jsToUpper (determineMethod "removeAll" {} none)
    ∧ determineMethod "GeTUser" {} none = determineMethod "getuser" {} none
    ∧ determineMethod "banUser" ⟨none, [("BAN*", "PATCH")]⟩ none =
        determineMethod "banUser" ⟨none, [("ban*", "PATCH")]⟩ none :=
  ⟨by decide, claim_C7_amended_uppercase.1 "x" {} "PATCH" (by decide),
    claim_C7_amended_uppercase.2.1 "removeAll" {} (fun r hr => nomatch hr)
      (fun d hd => nomatch hd),
    claim_C7_amended_uppercase.2.2.1 "GeTUser" "getuser" {} none (by decide),
    claim_C7_amended_uppercase.2.2.2 "banUser" none none
      [("BAN*", "PATCH")] [("ban*", "PATCH")] (by decide)⟩

end ApiClient
